import Mathlib

/-!
# Verification of the USAspending fetch-paginate-aggregate-write pipeline

Shallow embedding of `usaspending_doi.py` and `usaspending_ees.py`:

* Calendar dates are embedded as proleptic-Gregorian ordinal day numbers
  (day 1 = year 1, January 1), exactly as Python's `datetime.date.toordinal`;
  `parseDate` mirrors `datetime.strptime(s, "%Y-%m-%d")` (four year digits,
  one or two month/day digits, range-checked, returning `none` where Python
  raises) and `formatDate` mirrors `strftime("%Y-%m-%d")` (zero padding).
* `get_week_ranges` embeds the generator of the same name: the `while` loop
  is driven by explicit fuel `e - s`, which bounds its iteration count since
  `current` strictly increases on every iteration.
* The paginated fetchers are embedded over an abstract upstream
  `u : Nat -> PageResponse α` giving, per page number, either an HTTP
  response (status and decoded `results` list) or a network-level exception;
  the unbounded `while True` loop takes fuel, and every theorem holds for
  all sufficiently large fuel.  The embedding also returns the list of page
  numbers actually requested, in request order.
* `process_results` embeds the pandas transformation on a concrete
  table model; grouping/aggregation (`groupby(...).agg(["sum","count"])`)
  is embedded with sorted group keys, as pandas sorts them.
-/

namespace USASpending

/-! ## Calendar arithmetic (as in Python `datetime.date`) -/

/-- Gregorian leap year test, as in `calendar.isleap`. -/
def isLeap (y : Nat) : Bool :=
  y % 4 = 0 && (y % 100 ≠ 0 || y % 400 = 0)

/-- Days in the year before the first day of month `m` (m = 1..12),
ignoring the leap day.  Mirrors `datetime._DAYS_BEFORE_MONTH`. -/
def cumDaysBeforeMonth : Nat → Nat
  | 1 => 0 | 2 => 31 | 3 => 59 | 4 => 90 | 5 => 120 | 6 => 151
  | 7 => 181 | 8 => 212 | 9 => 243 | 10 => 273 | 11 => 304 | 12 => 334
  | _ => 0

/-- Days in the year strictly before month `m` of year `y`. -/
def daysBeforeMonth (y m : Nat) : Nat :=
  cumDaysBeforeMonth m + (if 2 < m && isLeap y then 1 else 0)

/-- Number of days in month `m` of year `y` (`datetime._days_in_month`). -/
def daysInMonth (y m : Nat) : Nat :=
  if m = 2 then (if isLeap y then 29 else 28)
  else if m = 1 || m = 3 || m = 5 || m = 7 || m = 8 || m = 10 || m = 12 then 31
  else 30

/-- Days before January 1 of year `y` (`datetime._days_before_year`). -/
def daysBeforeYear (y : Nat) : Nat :=
  (y - 1) * 365 + (y - 1) / 4 - (y - 1) / 100 + (y - 1) / 400

/-- Ordinal day number of (y, m, d): `datetime.date(y, m, d).toordinal()`.
Day 1 is January 1 of year 1. -/
def toOrdinal (y m d : Nat) : Nat :=
  daysBeforeYear y + daysBeforeMonth y m + d

/-- Largest month `m` of year `y` with `daysBeforeMonth y m ≤ rem`,
where `rem` is a 0-based day index within the year. -/
def monthOfYearDay (y rem : Nat) : Nat :=
  if rem < daysBeforeMonth y 2 then 1
  else if rem < daysBeforeMonth y 3 then 2
  else if rem < daysBeforeMonth y 4 then 3
  else if rem < daysBeforeMonth y 5 then 4
  else if rem < daysBeforeMonth y 6 then 5
  else if rem < daysBeforeMonth y 7 then 6
  else if rem < daysBeforeMonth y 8 then 7
  else if rem < daysBeforeMonth y 9 then 8
  else if rem < daysBeforeMonth y 10 then 9
  else if rem < daysBeforeMonth y 11 then 10
  else if rem < daysBeforeMonth y 12 then 11
  else 12

/-- Inverse of `toOrdinal`: `datetime.date.fromordinal` (`_ord2ymd`). -/
def fromOrdinal (n : Nat) : Nat × Nat × Nat :=
  let n0 := n - 1
  let n400 := n0 / 146097
  let r400 := n0 % 146097
  let n100 := r400 / 36524
  let r100 := r400 % 36524
  let n4 := r100 / 1461
  let r4 := r100 % 1461
  let n1 := r4 / 365
  let r1 := r4 % 365
  let year := n400 * 400 + n100 * 100 + n4 * 4 + n1 + 1
  if n1 = 4 || n100 = 4 then
    (year - 1, 12, 31)
  else
    let m := monthOfYearDay year r1
    (year, m, r1 - daysBeforeMonth year m + 1)

/-! ## Date strings -/

/-- Split a character list on `-` separators (keeping empty pieces). -/
def splitDash : List Char → List (List Char)
  | [] => [[]]
  | c :: cs =>
    if c = '-' then [] :: splitDash cs
    else
      match splitDash cs with
      | [] => [[c]]
      | g :: gs => (c :: g) :: gs

/-- Parse a nonempty all-digit character list as a natural number. -/
def digitsToNat : List Char → Option Nat
  | [] => none
  | cs =>
    if cs.all (fun c => c.isDigit) then
      some (cs.foldl (fun acc c => acc * 10 + (c.toNat - 48)) 0)
    else none

/-- Embeds `datetime.strptime(s, "%Y-%m-%d")` followed by `.toordinal()`:
`%Y` matches exactly four digits, `%m` and `%d` one or two digits, and the
constructed date is range-checked (year ≥ 1, 1 ≤ month ≤ 12,
1 ≤ day ≤ days in month).  Python raises `ValueError` where this is `none`. -/
def parseDate (s : String) : Option Nat :=
  match splitDash s.toList with
  | [ys, ms, ds] =>
    if ys.length = 4 && (ms.length = 1 || ms.length = 2)
        && (ds.length = 1 || ds.length = 2) then
      match digitsToNat ys, digitsToNat ms, digitsToNat ds with
      | some y, some m, some d =>
        if 1 ≤ y && 1 ≤ m && m ≤ 12 && 1 ≤ d && d ≤ daysInMonth y m then
          some (toOrdinal y m d)
        else none
      | _, _, _ => none
    else none
  | _ => none

/-- Render a natural number zero-padded to at least `w` digits. -/
def padNat (w n : Nat) : String :=
  let s := toString n
  if s.length < w then String.mk (List.replicate (w - s.length) '0') ++ s
  else s

/-- Embeds `date.fromordinal(n).strftime("%Y-%m-%d")`. -/
def formatDate (n : Nat) : String :=
  let ymd := fromOrdinal n
  padNat 4 ymd.1 ++ "-" ++ padNat 2 ymd.2.1 ++ "-" ++ padNat 2 ymd.2.2

/-! ## The date-range splitter (`get_week_ranges`, usaspending_doi.py:12-24)

The Python loop is

    current = start
    while current < end:
        week_end = min(current + timedelta(days=6), end)
        yield (current, week_end)
        current = week_end + timedelta(days=1)

`current` strictly increases on every iteration, so the loop runs at most
`e - s` times; `weekRangesGo` makes that bound explicit fuel (and
`weekRangesGo_fuel_irrel` shows any fuel `≥ e - current` gives the same
list, so the embedding equals the loop). -/

def weekRangesGo (e : Nat) : Nat → Nat → List (Nat × Nat)
  | 0, _ => []
  | fuel + 1, current =>
    if current < e then
      (current, min (current + 6) e)
        :: weekRangesGo e fuel (min (current + 6) e + 1)
    else []

/-- The generator's yielded list, on ordinal day numbers. -/
def weekRangesFrom (s e : Nat) : List (Nat × Nat) :=
  weekRangesGo e (e - s) s

/-- Embeds `get_week_ranges(start_date, end_date)`, run to exhaustion: parses both
dates (Python raises on a malformed date: `none` here), then yields
formatted `(chunk_start, chunk_end)` string pairs. -/
def get_week_ranges (start_date end_date : String) :
    Option (List (String × String)) :=
  match parseDate start_date, parseDate end_date with
  | some s, some e =>
    some ((weekRangesFrom s e).map (fun p => (formatDate p.1, formatDate p.2)))
  | _, _ => none

/-- A list of inclusive ranges covers day `d`. -/
def coversDay (ranges : List (Nat × Nat)) (d : Nat) : Prop :=
  ∃ r ∈ ranges, r.1 ≤ d ∧ d ≤ r.2

instance (ranges : List (Nat × Nat)) (d : Nat) :
    Decidable (coversDay ranges d) := by
  unfold coversDay; infer_instance

/-! ## The paginated fetcher
(`fetch_award_history`, usaspending_doi.py:69-96;
`fetch_personnel_spending`, usaspending_ees.py:62-98)

The upstream is abstracted as `u : Nat → PageResponse α`: for each requested
page number it either yields an HTTP response (status code plus the decoded
`results` list) or raises a network-level `RequestException`.  The Python
loop is `while True` with `limit = 100`:

    response = post(...)          # may raise -> break
    if response.status_code != 200: break
    if not data["results"]: break
    all_results.extend(data["results"])
    if len(data["results"]) < limit: break
    page += 1

`fetchPagesAux u fuel page acc` returns the pair of the accumulated records
and the list of page numbers requested, in request order; `fuel` bounds the
number of loop iterations, and every theorem below holds for every
sufficiently large fuel. -/

/-- One upstream page: an HTTP response (status, `results` list) or a
network-level exception raised by `requests.post`. -/
inductive PageResponse (α : Type) where
  | http : Nat → List α → PageResponse α
  | exn : PageResponse α

def fetchPagesAux (u : Nat → PageResponse α) :
    Nat → Nat → List α → List α × List Nat
  | 0, _, acc => (acc, [])
  | fuel + 1, page, acc =>
    match u page with
    | .exn => (acc, [page])
    | .http status results =>
      if status ≠ 200 then (acc, [page])
      else if results.isEmpty then (acc, [page])
      else
        let acc2 := acc ++ results
        if results.length < 100 then (acc2, [page])
        else
          let r := fetchPagesAux u fuel (page + 1) acc2
          (r.1, page :: r.2)

/-- Embeds `fetch_award_history` (usaspending_doi.py): the page loop starting at
page 1 with an empty accumulator.  First component: the returned
`all_results`; second component: the pages requested. -/
def fetch_award_history (u : Nat → PageResponse α) (fuel : Nat) :
    List α × List Nat :=
  fetchPagesAux u fuel 1 []

/-- Embeds `fetch_personnel_spending` (usaspending_ees.py): identical page loop
(the extra `total_entries` counter, progress prints and `time.sleep` do not
affect the returned records or the pages requested). -/
def fetch_personnel_spending (u : Nat → PageResponse α) (fuel : Nat) :
    List α × List Nat :=
  fetchPagesAux u fuel 1 []

/-- Concatenation of pages `p, p+1, ..., p+m-1` of the page-content
function `pg`. -/
def concatPages (pg : Nat → List α) : Nat → Nat → List α
  | _, 0 => []
  | p, m + 1 => pg p ++ concatPages pg (p + 1) m

/-! ## Table model and `process_results`
(usaspending_doi.py:98-116; usaspending_ees.py:100-117)

A cell is a JSON-ish scalar: a string, a number (`pd.to_numeric` output,
embedded as `ℚ`), or a parsed date (`pd.to_datetime` output, embedded as an
ordinal day).  A row is an association list field-name → value, and a
`DataFrame` is its column list (in order) plus its rows. -/

inductive Value where
  | str : String → Value
  | num : ℚ → Value
  | date : Nat → Value
deriving DecidableEq

abbrev Row := List (String × Value)

structure DataFrame where
  columns : List String
  rows : List Row
deriving DecidableEq

/-- Embeds pandas `DataFrame.empty`: true when either axis has length 0 —
a frame with rows but no columns (records that are all empty dicts) is
empty, exactly as `pd.DataFrame([{}]).empty` is `True`. -/
def DataFrame.empty (df : DataFrame) : Bool :=
  df.rows.isEmpty || df.columns.isEmpty

/-- Keep the first occurrence of each element (column-name order of
`pd.DataFrame(list_of_dicts)`). -/
def dedupFirst : List String → List String
  | [] => []
  | x :: xs => x :: (dedupFirst xs).filter (fun y => y != x)

/-- Split a character list on a separator character (keeping empty pieces). -/
def splitOnChar (sep : Char) : List Char → List (List Char)
  | [] => [[]]
  | c :: cs =>
    if c = sep then [] :: splitOnChar sep cs
    else
      match splitOnChar sep cs with
      | [] => [[c]]
      | g :: gs => (c :: g) :: gs

/-- Parse an unsigned decimal mantissa (`123`, `123.45`, `123.`, `.45`). -/
def parseMantissa (body : List Char) : Option ℚ :=
  match splitOnChar '.' body with
  | [ip] =>
    match digitsToNat ip with
    | some n => some ((n : ℚ))
    | none => none
  | [ip, fp] =>
    if ip.isEmpty && fp.isEmpty then none
    else if (ip.all (fun c => c.isDigit)) && (fp.all (fun c => c.isDigit)) then
      let ipart := (ip.foldl (fun acc c => acc * 10 + (c.toNat - 48)) 0 : Nat)
      let fpart := (fp.foldl (fun acc c => acc * 10 + (c.toNat - 48)) 0 : Nat)
      some ((ipart : ℚ) + (fpart : ℚ) / ((10 : ℚ) ^ fp.length))
    else none
  | _ => none

/-- Parse an optionally signed decimal exponent. -/
def parseExp (cs : List Char) : Option Int :=
  match cs with
  | '-' :: rest => (digitsToNat rest).map (fun n => -(n : Int))
  | '+' :: rest => (digitsToNat rest).map (fun n => (n : Int))
  | _ => (digitsToNat cs).map (fun n => (n : Int))

/-- Parse an optionally signed decimal literal, with an optional
`e`/`E` exponent, as accepted by float parsing under `pd.to_numeric` on a
numeric string. -/
def parseDecimal (s : String) : Option ℚ :=
  let cs := s.toList
  let signAndDigits : Bool × List Char :=
    match cs with
    | '-' :: rest => (true, rest)
    | '+' :: rest => (false, rest)
    | _ => (false, cs)
  let neg := signAndDigits.1
  let body := (signAndDigits.2).map (fun c => if c = 'E' then 'e' else c)
  let mag : Option ℚ :=
    match splitOnChar 'e' body with
    | [mant] => parseMantissa mant
    | [mant, ex] =>
      match parseMantissa mant, parseExp ex with
      | some q, some e =>
        some (if 0 ≤ e then q * (10 : ℚ) ^ e.toNat else q / (10 : ℚ) ^ (-e).toNat)
      | _, _ => none
    | _ => none
  match mag with
  | some q => some (if neg then -q else q)
  | none => none

/-- Embeds `pd.to_datetime` on one cell: parse a `YYYY-MM-DD` string to a
date.  Where pandas would raise instead (its default is errors equal to
raise, so an unparseable cell aborts the run), this total embedding keeps
the cell unchanged; theorems about whole runs therefore restrict their
rows to [[rowOk]] cells, on which the two semantics agree. -/
def toDatetimeVal : Value → Value
  | .str s =>
    match parseDate s with
    | some n => .date n
    | none => .str s
  | v => v

/-- Embeds `pd.to_numeric` on one cell: numbers pass through and numeric
strings (including scientific notation) are parsed.  Where pandas would
raise instead (its default is errors equal to raise), this total embedding
keeps the cell unchanged; theorems about whole runs therefore restrict
their rows to [[rowOk]] cells, on which the two semantics agree. -/
def toNumericVal : Value → Value
  | .str s =>
    match parseDecimal s with
    | some q => .num q
    | none => .str s
  | v => v

/-- One cell is convertible without an exception: an `"Action Date"` value
must be a parseable date string and a `"Transaction Amount"` value a number
or a parseable numeric string (on such cells `pd.to_datetime` /
`pd.to_numeric` with their default raise-on-error behavior return normally,
and the total embeddings above coincide with them). -/
def cellOk (kv : String × Value) : Bool :=
  (kv.1 != "Action Date" ||
    (match kv.2 with
     | .str s => (parseDate s).isSome
     | _ => false)) &&
  (kv.1 != "Transaction Amount" ||
    (match kv.2 with
     | .num _ => true
     | .str s => (parseDecimal s).isSome
     | _ => false))

/-- Every cell of the row is convertible without an exception. -/
def rowOk (r : Row) : Bool := r.all cellOk

/-- Insert commas as thousands separators (Python's `,` format flag). -/
def chunk3 : List Char → List (List Char)
  | [] => []
  | a :: b :: c :: rest => [a, b, c] :: chunk3 rest
  | l => [l]

def addCommas (s : String) : String :=
  String.mk (List.intercalate [','] (chunk3 s.toList.reverse)).reverse

/-- Python's `f"${x:,.2f}"`: dollar sign, sign, comma-grouped integer part,
two fraction digits. -/
def formatCurrency (q : ℚ) : String :=
  let cents : Nat := (round (|q| * 100)).toNat
  "$" ++ (if q < 0 then "-" else "")
    ++ addCommas (toString (cents / 100)) ++ "." ++ padNat 2 (cents % 100)

/-- The `"Action Date"` column conversion by `pd.to_datetime`, row-wise. -/
def convertDateField (r : Row) : Row :=
  r.map (fun kv => if kv.1 = "Action Date" then (kv.1, toDatetimeVal kv.2) else kv)

/-- The `"Transaction Amount"` column conversion by `pd.to_numeric`, row-wise. -/
def convertAmountField (r : Row) : Row :=
  r.map (fun kv => if kv.1 = "Transaction Amount" then (kv.1, toNumericVal kv.2) else kv)

/-- The display string derived from a row's transaction amount:
`lambda x: f"${x:,.2f}" if pd.notnull(x) else "$0.00"`. -/
def rowAmountString (r : Row) : String :=
  match r.lookup "Transaction Amount" with
  | some (.num q) => formatCurrency q
  | _ => "$0.00"

namespace Doi

/-- Embeds `process_results` (usaspending_doi.py:98-116): empty input returns
`pd.DataFrame()` (no columns, no rows); otherwise one row per record, with
`"Action Date"` parsed, `"Transaction Amount"` made numeric, and a derived
`"Amount"` display column appended when a transaction-amount column exists. -/
def process_results (data : List Row) : DataFrame :=
  if data.isEmpty then ⟨[], []⟩
  else
    let cols := dedupFirst (data.flatMap (fun r => r.map Prod.fst))
    let hasDate := "Action Date" ∈ cols
    let hasAmt := "Transaction Amount" ∈ cols
    let data1 := if hasDate then data.map convertDateField else data
    let data2 := if hasAmt then data1.map convertAmountField else data1
    let rows :=
      if hasAmt then
        data2.map (fun r => r ++ [("Amount", Value.str (rowAmountString r))])
      else data2
    ⟨if hasAmt then cols ++ ["Amount"] else cols, rows⟩

end Doi

namespace Ees

/-- Embeds `process_results` (usaspending_ees.py:100-117): identical to the DOI
variant except the derived display column is named `"Formatted Amount"`. -/
def process_results (data : List Row) : DataFrame :=
  if data.isEmpty then ⟨[], []⟩
  else
    let cols := dedupFirst (data.flatMap (fun r => r.map Prod.fst))
    let hasDate := "Action Date" ∈ cols
    let hasAmt := "Transaction Amount" ∈ cols
    let data1 := if hasDate then data.map convertDateField else data
    let data2 := if hasAmt then data1.map convertAmountField else data1
    let rows :=
      if hasAmt then
        data2.map (fun r => r ++ [("Formatted Amount", Value.str (rowAmountString r))])
      else data2
    ⟨if hasAmt then cols ++ ["Formatted Amount"] else cols, rows⟩

end Ees

/-! ## Award-category aggregation (usaspending_doi.py:168-179) -/

/-- The `award_type_map` literal of `main` (usaspending_doi.py:169-175). -/
def award_type_map : List (String × String) :=
  [("A", "Contracts"), ("B", "Contracts"), ("C", "Contracts"), ("D", "Contracts"),
   ("02", "Grants"), ("03", "Grants"), ("04", "Grants"), ("05", "Grants"),
   ("06", "Direct Payments"), ("10", "Direct Payments"),
   ("07", "Loans"), ("08", "Loans"),
   ("09", "Other"), ("11", "Other")]

/-- Embeds `final_df["Award Type"].map(award_type_map)` on one code
(`Series.map` with a dict: unmapped codes become NaN, hence `none`). -/
def mapAwardCategory (code : String) : Option String :=
  award_type_map.lookup code

/-- The `award_type_codes` list sent in the request filter
(usaspending_doi.py:32-38). -/
def award_type_codes : List String :=
  ["A", "B", "C", "D", "02", "03", "04", "05", "06", "10", "07", "08", "09", "11"]

/-- The five category names the lookup table maps into. -/
def awardCategories : List String :=
  ["Contracts", "Grants", "Direct Payments", "Loans", "Other"]

def insertSorted (x : String) : List String → List String
  | [] => [x]
  | y :: ys => if x ≤ y then x :: y :: ys else y :: insertSorted x ys

/-- Lexicographically sorted keys, as `groupby` sorts group keys. -/
def sortKeys (l : List String) : List String := l.foldr insertSorted []

/-- Embeds `final_df.groupby("Award Category")["Transaction Amount"]
.agg(["sum", "count"])` over (award-type code, amount) records: rows whose
code is unmapped (NaN category) are dropped by `groupby`; one summary row
`(category, sum, count)` per category present, keys sorted. -/
def categorySummary (records : List (String × ℚ)) : List (String × ℚ × Nat) :=
  let cats := sortKeys (dedupFirst
    (records.filterMap (fun r => mapAwardCategory r.1)))
  cats.map (fun c =>
    let grp := records.filter (fun r => mapAwardCategory r.1 == some c)
    (c, (grp.map Prod.snd).sum, grp.length))

/-! ## Output writer (`main`, usaspending_doi.py:129-157)

`main` is modelled over the per-chunk fetch results (one `List Row` per
weekly chunk, in chunk order); everything else it does with the filesystem
is captured by the list of file paths it writes, in write order. -/

def weeklyFilename (n : Nat) : String :=
  "output/fy2024/doi_awards_week_" ++ toString n ++ ".csv"

def combinedFilename : String := "output/fy2024/doi_awards_fy2024_complete.csv"

/-- Per-chunk CSV files written by the loop: chunk `week_num` (1-based) is
written only when its fetch returned data (`if data:`) and the processed
table is nonempty on both axes (`if not df.empty:`). -/
def mainWeeklyFiles (chunks : List (List Row)) : List String :=
  (chunks.enumFrom 1).filterMap (fun p =>
    if p.2.isEmpty then none
    else if (Doi.process_results p.2).empty then none
    else some (weeklyFilename p.1))

/-- The `all_data` accumulator after the loop: a table is appended under
the same `if data:` / `if not df.empty:` guards as the per-chunk write. -/
def mainAllData (chunks : List (List Row)) : List DataFrame :=
  chunks.filterMap (fun d =>
    if d.isEmpty then none
    else
      let df := Doi.process_results d
      if df.empty then none else some df)

/-- Every file path `main` writes: the per-chunk files, then the combined
file, written only under `if all_data:`. -/
def mainWrittenFiles (chunks : List (List Row)) : List String :=
  mainWeeklyFiles chunks
    ++ (if (mainAllData chunks).isEmpty then [] else [combinedFilename])

/-! ## Supporting lemmas -/

/-- The fuel `weekRangesGo` is given does not matter, provided it is at
least `e - current` (the loop's iteration bound): the embedding computes
the Python loop, not an artifact of the chosen fuel. -/
theorem weekRangesGo_fuel_irrel (e : Nat) :
    ∀ f1 f2 c, e - c ≤ f1 → e - c ≤ f2 →
      weekRangesGo e f1 c = weekRangesGo e f2 c := by
  intro f1
  induction f1 with
  | zero =>
    intro f2 c h1 _
    cases f2 with
    | zero => rfl
    | succ f => simp only [weekRangesGo]; rw [if_neg]; omega
  | succ f ih =>
    intro f2 c h1 h2
    cases f2 with
    | zero =>
      simp only [weekRangesGo]; rw [if_neg]; omega
    | succ g =>
      simp only [weekRangesGo]
      by_cases hc : c < e
      · rw [if_pos hc, if_pos hc]
        rw [ih g (min (c + 6) e + 1) (by omega) (by omega)]
      · rw [if_neg hc, if_neg hc]

theorem concatPages_length (pg : Nat → List α) :
    ∀ m p, (∀ q, p ≤ q → q < p + m → (pg q).length = 100) →
      (concatPages pg p m).length = 100 * m := by
  intro m
  induction m with
  | zero => intro p _; rfl
  | succ k ih =>
    intro p h
    simp only [concatPages, List.length_append]
    rw [h p (by omega) (by omega), ih (p + 1) (fun q h1 h2 => h q (by omega) (by omega))]
    ring

/-- Running the loop across `m` consecutive pages that all respond with
status 200 and exactly 100 records: the loop appends all of them, records
each page number as requested, and continues at page `p + m`. -/
theorem fetchPagesAux_full_run (u : Nat → PageResponse α) (pg : Nat → List α) :
    ∀ m fuel p (acc : List α), m ≤ fuel →
      (∀ q, p ≤ q → q < p + m →
        u q = .http 200 (pg q) ∧ (pg q).length = 100) →
      fetchPagesAux u fuel p acc =
        ((fetchPagesAux u (fuel - m) (p + m) (acc ++ concatPages pg p m)).1,
          List.range' p m ++
            (fetchPagesAux u (fuel - m) (p + m) (acc ++ concatPages pg p m)).2) := by
  intro m
  induction m with
  | zero =>
    intro fuel p acc _ _
    simp [concatPages]
  | succ k ih =>
    intro fuel p acc hfuel hfull
    obtain ⟨f, rfl⟩ : ∃ f, fuel = f + 1 := ⟨fuel - 1, by omega⟩
    obtain ⟨hu, hlen⟩ := hfull p (by omega) (by omega)
    have hne : (pg p).isEmpty = false := by
      rw [List.isEmpty_eq_false]
      intro h0; rw [h0] at hlen; simp at hlen
    simp only [fetchPagesAux, hu]
    rw [if_neg (by omega), hne, if_neg (by simp), if_neg (by omega)]
    rw [ih f (p + 1) (acc ++ pg p) (by omega)
      (fun q h1 h2 => hfull q (by omega) (by omega))]
    have harr : p + 1 + k = p + (k + 1) := by omega
    have hfu : f - k = f + 1 - (k + 1) := by omega
    have hcat : acc ++ pg p ++ concatPages pg (p + 1) k
        = acc ++ concatPages pg p (k + 1) := by
      simp [concatPages]
    rw [harr, hfu, hcat, List.range'_succ]
    simp

/-! ## Claim theorems -/

/-- Claim C6: splitting 2023-10-01 .. 2023-10-14 (inclusive) with the 7-day
chunk size yields exactly the two ranges (2023-10-01, 2023-10-07) and
(2023-10-08, 2023-10-14), in that order. -/
theorem get_week_ranges_fy24_first_fortnight :
    get_week_ranges "2023-10-01" "2023-10-14" =
      some [("2023-10-01", "2023-10-07"), ("2023-10-08", "2023-10-14")] := by
  decide

/-- Claim C1 (failing input): on the valid pair start = 2023-10-01 ≤
end = 2023-10-08, whose span is an exact multiple of 7 days, the splitter
yields only (2023-10-01, 2023-10-07): the final day `end` is covered by no
generated range, contradicting the claimed exactly-once coverage of the
inclusive interval.  (The loop guard `while current < end` should be
`current <= end`.) -/
theorem get_week_ranges_misses_final_day :
    toOrdinal 2023 10 1 ≤ toOrdinal 2023 10 8 ∧
    get_week_ranges "2023-10-01" "2023-10-08" =
      some [("2023-10-01", "2023-10-07")] ∧
    ¬ coversDay (weekRangesFrom (toOrdinal 2023 10 1) (toOrdinal 2023 10 8))
      (toOrdinal 2023 10 8) := by
  decide

/-- Claim C10: for well-formed dates with start > end, `get_week_ranges`
terminates immediately with the empty sequence (and no error). -/
theorem get_week_ranges_start_after_end (ds de : String) (s e : Nat)
    (hs : parseDate ds = some s) (he : parseDate de = some e)
    (hgt : e < s) :
    get_week_ranges ds de = some [] := by
  unfold get_week_ranges
  rw [hs, he]
  have h0 : e - s = 0 := by omega
  simp [weekRangesFrom, h0, weekRangesGo]

theorem get_week_ranges_start_after_end_witness :
    get_week_ranges "2023-10-02" "2023-10-01" = some [] :=
  get_week_ranges_start_after_end "2023-10-02" "2023-10-01"
    (toOrdinal 2023 10 2) (toOrdinal 2023 10 1)
    (by decide) (by decide) (by decide)

/-- Claim C7: an upstream whose page 1 carries status 200 and an empty
result list makes both fetchers return the empty collection, having
requested only page 1 (normal end-of-data, no error). -/
theorem fetcher_empty_first_page (u : Nat → PageResponse α) (fuel : Nat)
    (hfuel : 1 ≤ fuel) (h1 : u 1 = .http 200 []) :
    fetch_award_history u fuel = ([], [1]) ∧
    fetch_personnel_spending u fuel = ([], [1]) := by
  obtain ⟨f, rfl⟩ : ∃ f, fuel = f + 1 := ⟨fuel - 1, by omega⟩
  constructor <;>
    simp [fetch_award_history, fetch_personnel_spending, fetchPagesAux, h1]

theorem fetcher_empty_first_page_witness :
    fetch_award_history (fun _ => PageResponse.http 200 ([] : List Nat)) 5
        = ([], [1]) ∧
    fetch_personnel_spending (fun _ => PageResponse.http 200 ([] : List Nat)) 5
        = ([], [1]) :=
  fetcher_empty_first_page (fun _ => PageResponse.http 200 ([] : List Nat)) 5
    (by omega) rfl

/-- Claim C2: against an upstream serving N successive pages of exactly 100
records each and then a page with K records, 0 < K < 100, both fetchers
return all pages concatenated — exactly 100*N + K records — and never
request page N + 2. -/
theorem fetcher_stops_after_short_page (u : Nat → PageResponse α)
    (pg : Nat → List α) (N K fuel : Nat) (hfuel : N + 1 ≤ fuel)
    (hfull : ∀ q, 1 ≤ q → q ≤ N →
      u q = .http 200 (pg q) ∧ (pg q).length = 100)
    (hlast : u (N + 1) = .http 200 (pg (N + 1)))
    (hK : (pg (N + 1)).length = K) (hK0 : 0 < K) (hK100 : K < 100) :
    fetch_award_history u fuel = (concatPages pg 1 N ++ pg (N + 1),
      List.range' 1 (N + 1)) ∧
    (fetch_award_history u fuel).1.length = 100 * N + K ∧
    N + 2 ∉ (fetch_award_history u fuel).2 ∧
    fetch_personnel_spending u fuel = (concatPages pg 1 N ++ pg (N + 1),
      List.range' 1 (N + 1)) := by
  have hfull2 : ∀ q, 1 ≤ q → q < 1 + N →
      u q = .http 200 (pg q) ∧ (pg q).length = 100 :=
    fun q h1 h2 => hfull q h1 (by omega)
  have hrun := fetchPagesAux_full_run u pg N fuel 1 [] (by omega) hfull2
  have hne : (pg (N + 1)).isEmpty = false := by
    rw [List.isEmpty_eq_false]
    intro h0; rw [h0] at hK; simp at hK; omega
  obtain ⟨f, hf⟩ : ∃ f, fuel - N = f + 1 := ⟨fuel - N - 1, by omega⟩
  have h1N : 1 + N = N + 1 := by omega
  have htail : fetchPagesAux u (fuel - N) (1 + N)
      (([] : List α) ++ concatPages pg 1 N)
      = (([] ++ concatPages pg 1 N) ++ pg (N + 1), [1 + N]) := by
    rw [hf, h1N]
    simp only [fetchPagesAux, hlast, hne]
    rw [if_neg (by omega), if_neg (by simp), if_pos (by omega)]
  have key : fetch_award_history u fuel
      = (concatPages pg 1 N ++ pg (N + 1), List.range' 1 (N + 1)) := by
    show fetchPagesAux u fuel 1 [] = _
    rw [hrun, htail]
    have : List.range' 1 (N + 1) = List.range' 1 N ++ [1 + N] := by
      rw [List.range'_concat]
      simp [Nat.add_comm]
    rw [this]
    simp
  refine ⟨key, ?_, ?_, key⟩
  · rw [key]
    simp only [List.length_append]
    rw [concatPages_length pg N 1 (fun q h1 h2 => (hfull2 q h1 h2).2), hK]
  · rw [key]
    simp only [List.mem_range'_1]
    omega

theorem fetcher_stops_after_short_page_witness :
    fetch_award_history
        (fun p => PageResponse.http 200
          (if p = 1 then List.replicate 100 0 else if p = 2 then [7] else []))
        3
      = (concatPages
          (fun p => if p = 1 then List.replicate 100 0
            else if p = 2 then [7] else []) 1 1 ++ [7],
        List.range' 1 2) ∧
    (fetch_award_history
        (fun p => PageResponse.http 200
          (if p = 1 then List.replicate 100 0 else if p = 2 then [7] else []))
        3).1.length = 100 * 1 + 1 ∧
    1 + 2 ∉ (fetch_award_history
        (fun p => PageResponse.http 200
          (if p = 1 then List.replicate 100 0 else if p = 2 then [7] else []))
        3).2 ∧
    fetch_personnel_spending
        (fun p => PageResponse.http 200
          (if p = 1 then List.replicate 100 0 else if p = 2 then [7] else []))
        3
      = (concatPages
          (fun p => if p = 1 then List.replicate 100 0
            else if p = 2 then [7] else []) 1 1 ++ [7],
        List.range' 1 2) := by
  have h := fetcher_stops_after_short_page
    (fun p => PageResponse.http 200
      (if p = 1 then List.replicate 100 0 else if p = 2 then [7] else []))
    (fun p => if p = 1 then List.replicate 100 0 else if p = 2 then [7] else [])
    1 1 3 (by omega)
    (fun q h1 h2 => by
      have hq : q = 1 := by omega
      subst hq
      exact ⟨rfl, by simp⟩)
    rfl (by simp) (by omega) (by omega)
  exact h

/-- Claim C3: if pages 1..n-1 all return status 200 with full (100-record)
pages and the request for page n = m+1 fails — a network-level exception or
a non-success status — both fetchers return exactly the records of pages
1..n-1 and the requested pages are 1..n, each exactly once (no retry, no
further page). -/
theorem fetcher_error_keeps_partial (u : Nat → PageResponse α)
    (pg : Nat → List α) (m fuel : Nat) (hfuel : m + 1 ≤ fuel)
    (hfull : ∀ q, 1 ≤ q → q ≤ m →
      u q = .http 200 (pg q) ∧ (pg q).length = 100)
    (herr : u (m + 1) = .exn ∨
      ∃ st rs, u (m + 1) = .http st rs ∧ st ≠ 200) :
    fetch_award_history u fuel = (concatPages pg 1 m, List.range' 1 (m + 1)) ∧
    fetch_personnel_spending u fuel
      = (concatPages pg 1 m, List.range' 1 (m + 1)) := by
  have hfull2 : ∀ q, 1 ≤ q → q < 1 + m →
      u q = .http 200 (pg q) ∧ (pg q).length = 100 :=
    fun q h1 h2 => hfull q h1 (by omega)
  have hrun := fetchPagesAux_full_run u pg m fuel 1 [] (by omega) hfull2
  obtain ⟨f, hf⟩ : ∃ f, fuel - m = f + 1 := ⟨fuel - m - 1, by omega⟩
  have h1m : 1 + m = m + 1 := by omega
  have htail : fetchPagesAux u (fuel - m) (1 + m)
      (([] : List α) ++ concatPages pg 1 m)
      = ([] ++ concatPages pg 1 m, [1 + m]) := by
    rw [hf, h1m]
    rcases herr with hx | ⟨st, rs, hst, hne⟩
    · simp only [fetchPagesAux, hx]
    · simp only [fetchPagesAux, hst]
      rw [if_pos (by omega)]
  have key : fetchPagesAux u fuel 1 ([] : List α)
      = (concatPages pg 1 m, List.range' 1 (m + 1)) := by
    rw [hrun, htail]
    have : List.range' 1 (m + 1) = List.range' 1 m ++ [1 + m] := by
      rw [List.range'_concat]
      simp [Nat.add_comm]
    rw [this]
    simp
  exact ⟨key, key⟩

theorem fetcher_error_keeps_partial_witness :
    fetch_award_history
        (fun p => if p = 1 then PageResponse.http 200 (List.replicate 100 0)
          else PageResponse.http 500 [])
        5
      = (concatPages
          (fun _ => (List.replicate 100 0 : List Nat)) 1 1,
        List.range' 1 2) := by
  have h := fetcher_error_keeps_partial
    (fun p => if p = 1 then PageResponse.http 200 (List.replicate 100 0)
      else PageResponse.http 500 [])
    (fun _ => (List.replicate 100 0 : List Nat))
    1 5 (by omega)
    (fun q h1 h2 => by
      have hq : q = 1 := by omega
      subst hq
      exact ⟨rfl, by simp⟩)
    (Or.inr ⟨500, [], rfl, by omega⟩)
  exact h.1

/-- Claim C8: both `process_results` functions map an empty record list to
the empty table — no rows and no columns at all, in particular none of the
derived (parsed-date, numeric-amount, formatted-currency) columns — and
return normally. -/
theorem process_results_empty_input :
    Doi.process_results [] = ⟨[], []⟩ ∧ Ees.process_results [] = ⟨[], []⟩ := by
  decide

/-- Claim C5: on records with award type codes and amounts exactly
A ↦ $100 and 02 ↦ $50 (one record each), the lookup maps A to Contracts
and 02 to Grants, and the category aggregation produces the summary rows
Contracts: sum 100, count 1 and Grants: sum 50, count 1. -/
theorem categorySummary_contracts_grants :
    mapAwardCategory "A" = some "Contracts" ∧
    mapAwardCategory "02" = some "Grants" ∧
    categorySummary [("A", (100 : ℚ)), ("02", 50)] =
      [("Contracts", (100 : ℚ), 1), ("Grants", (50 : ℚ), 1)] := by
  refine ⟨rfl, rfl, ?_⟩
  with_unfolding_all rfl

/-- Claim C9: the award-category lookup table is total over the request
filter: each of the 14 codes of `award_type_codes` is mapped to exactly one
category, and that category is one of the five of `awardCategories`. -/
theorem award_type_map_total_on_filter :
    ∀ c ∈ award_type_codes,
      ∃! cat, cat ∈ awardCategories ∧ mapAwardCategory c = some cat := by
  have h : ∀ c ∈ award_type_codes,
      ∃ cat ∈ awardCategories, mapAwardCategory c = some cat := by decide
  intro c hc
  obtain ⟨cat, hmem, heq⟩ := h c hc
  refine ⟨cat, ⟨hmem, heq⟩, fun y hy => ?_⟩
  rw [heq] at hy
  exact (Option.some_inj.mp hy.2).symm

theorem award_type_map_total_on_filter_witness :
    ∃! cat, cat ∈ awardCategories ∧ mapAwardCategory "A" = some cat :=
  award_type_map_total_on_filter "A" (by decide)

theorem process_results_rows_length (d : List Row) (hd : d.isEmpty = false) :
    (Doi.process_results d).rows.length = d.length := by
  simp only [Doi.process_results, hd, Bool.false_eq_true, if_false]
  by_cases hD : "Action Date" ∈ dedupFirst (d.flatMap (fun r => r.map Prod.fst)) <;>
    by_cases hA : "Transaction Amount" ∈ dedupFirst (d.flatMap (fun r => r.map Prod.fst)) <;>
    simp [hD, hA]

theorem process_results_rows_isEmpty (d : List Row) :
    (Doi.process_results d).rows.isEmpty = d.isEmpty := by
  cases hd : d.isEmpty
  · have hlen := process_results_rows_length d hd
    rw [List.isEmpty_eq_false]
    intro h0
    rw [h0] at hlen
    rw [List.isEmpty_eq_false] at hd
    exact hd (List.length_eq_zero.mp hlen.symm)
  · rw [List.isEmpty_iff.mp hd]
    decide

theorem dedupFirst_eq_nil (l : List String) : dedupFirst l = [] ↔ l = [] := by
  cases l <;> simp [dedupFirst]

theorem flatKeys_ne_nil_iff (d : List Row) :
    dedupFirst (d.flatMap (fun r => r.map Prod.fst)) ≠ [] ↔ ∃ r ∈ d, r ≠ [] := by
  rw [Ne, dedupFirst_eq_nil, List.flatMap_eq_nil_iff]
  constructor
  · intro h
    by_contra hno
    push_neg at hno
    exact h (fun r hr => by rw [hno r hr]; rfl)
  · rintro ⟨r, hr, hrne⟩ hall
    exact hrne (List.map_eq_nil_iff.mp (hall r hr))

theorem process_results_columns (d : List Row) (hd : d.isEmpty = false) :
    (Doi.process_results d).columns =
      if "Transaction Amount" ∈ dedupFirst (d.flatMap (fun r => r.map Prod.fst)) then
        dedupFirst (d.flatMap (fun r => r.map Prod.fst)) ++ ["Amount"]
      else dedupFirst (d.flatMap (fun r => r.map Prod.fst)) := by
  simp only [Doi.process_results, hd, Bool.false_eq_true, if_false]

/-- Embeds the processed table of a chunk is nonempty (pandas
`not df.empty`) exactly when the chunk has a record with at least one
field: rows exist iff the chunk has a record, and columns exist iff some
record has a field. -/
theorem process_results_empty_eq_false_iff (d : List Row) :
    (Doi.process_results d).empty = false ↔ ∃ r ∈ d, r ≠ [] := by
  by_cases hd : d = []
  · subst hd
    simp [Doi.process_results, DataFrame.empty]
  · have hne : d.isEmpty = false := by rw [List.isEmpty_eq_false]; exact hd
    have hrows : (Doi.process_results d).rows.isEmpty = false := by
      rw [process_results_rows_isEmpty]; exact hne
    simp only [DataFrame.empty, hrows, Bool.false_or]
    rw [process_results_columns d hne]
    by_cases hA : "Transaction Amount"
        ∈ dedupFirst (d.flatMap (fun r => r.map Prod.fst))
    · rw [if_pos hA]
      constructor
      · intro _
        exact (flatKeys_ne_nil_iff d).mp (List.ne_nil_of_mem hA)
      · intro _
        simp
    · rw [if_neg hA, List.isEmpty_eq_false]
      exact flatKeys_ne_nil_iff d

theorem mainWeeklyFiles_length (chunks : List (List Row)) :
    (mainWeeklyFiles chunks).length
      = (chunks.filter (fun d => d.any (fun r => !r.isEmpty))).length := by
  suffices h : ∀ (cs : List (List Row)) (n : Nat),
      ((cs.enumFrom n).filterMap (fun p : Nat × List Row =>
        if p.2.isEmpty then none
        else if (Doi.process_results p.2).empty then none
        else some (weeklyFilename p.1))).length
        = (cs.filter (fun d => d.any (fun r => !r.isEmpty))).length from
    h chunks 1
  intro cs
  induction cs with
  | nil => intro n; rfl
  | cons d rest ih =>
    intro n
    by_cases hex : ∃ r ∈ d, r ≠ []
    · have hd : d ≠ [] := by
        rcases hex with ⟨r, hr, _⟩
        intro h0; rw [h0] at hr; simp at hr
      have hne : d.isEmpty = false := by rw [List.isEmpty_eq_false]; exact hd
      have hempty : (Doi.process_results d).empty = false :=
        (process_results_empty_eq_false_iff d).mpr hex
      have hany : d.any (fun r => !r.isEmpty) = true := by
        rw [List.any_eq_true]
        rcases hex with ⟨r, hr, hrne⟩
        exact ⟨r, hr, by simpa using hrne⟩
      simp [List.enumFrom, List.filterMap_cons, List.filter_cons, hd, hne, hempty, hany]
      simpa using ih (n + 1)
    · have hany : d.any (fun r => !r.isEmpty) = false := by
        cases hq : d.any (fun r => !r.isEmpty)
        · rfl
        · exfalso
          rw [List.any_eq_true] at hq
          rcases hq with ⟨r, hr, hrb⟩
          exact hex ⟨r, hr, by simpa using hrb⟩
      by_cases hd : d = []
      · subst hd
        simp [List.enumFrom, List.filterMap_cons, List.filter_cons]
        simpa using ih (n + 1)
      · have hne : d.isEmpty = false := by rw [List.isEmpty_eq_false]; exact hd
        have hempty : (Doi.process_results d).empty = true := by
          cases hq : (Doi.process_results d).empty
          · exact absurd ((process_results_empty_eq_false_iff d).mp hq) hex
          · rfl
        simp [List.enumFrom, List.filterMap_cons, List.filter_cons, hne, hempty, hany]
        simpa using ih (n + 1)

theorem mainAllData_eq_nil_iff (chunks : List (List Row)) :
    mainAllData chunks = [] ↔ ∀ d ∈ chunks, ∀ r ∈ d, r = [] := by
  simp only [mainAllData, List.filterMap_eq_nil_iff]
  constructor
  · intro h d hd r hr
    have hgd := h d hd
    by_contra hrne
    have hd0 : d ≠ [] := by intro h0; rw [h0] at hr; simp at hr
    have hne : d.isEmpty = false := by rw [List.isEmpty_eq_false]; exact hd0
    have hempty : (Doi.process_results d).empty = false :=
      (process_results_empty_eq_false_iff d).mpr ⟨r, hr, hrne⟩
    simp [hne, hempty] at hgd
  · intro h d hd
    by_cases hd0 : d = []
    · subst hd0; simp
    · have hne : d.isEmpty = false := by rw [List.isEmpty_eq_false]; exact hd0
      have hempty : (Doi.process_results d).empty = true := by
        cases hq : (Doi.process_results d).empty
        · exfalso
          obtain ⟨r, hr, hrne⟩ := (process_results_empty_eq_false_iff d).mp hq
          exact hrne (h d hd r hr)
        · rfl
      simp [hne, hempty]

theorem weeklyFilename_ne_combined (n : Nat) :
    weeklyFilename n ≠ combinedFilename := by
  intro h
  have h1 := congrArg (fun s => s.data.take 26) h
  simp only [weeklyFilename, combinedFilename, String.data_append] at h1
  rw [List.append_assoc] at h1
  rw [List.take_append_of_le_length (by decide)] at h1
  exact absurd h1 (by decide)

/-- Claim C4 (counterexample): on a run with a single chunk whose fetch
returned no records, `main` writes no per-chunk file at all (and no
combined file), so the number of per-chunk files (0) differs from the
number of chunks (1). -/
theorem main_writes_no_file_for_empty_chunk :
    mainWrittenFiles [([] : List Row)] = [] ∧
    (mainWeeklyFiles [([] : List Row)]).length ≠ ([([] : List Row)]).length := by
  decide

/-- Claim C4 (amended): on runs whose record values do not make the pandas
conversions raise (every row [[rowOk]]), `main` writes one per-chunk CSV
(chunk index in the filename) for each chunk whose fetch returned at least
one record with at least one field — that is, each chunk whose processed
table is nonempty on both axes; a chunk with no records, or only empty
records, produces no file — and writes the combined file if and only if at
least one such chunk exists. -/
theorem main_one_file_per_nonempty_chunk (chunks : List (List Row))
    (hok : ∀ d ∈ chunks, ∀ r ∈ d, rowOk r = true) :
    (mainWeeklyFiles chunks).length
      = (chunks.filter (fun d => d.any (fun r => !r.isEmpty))).length ∧
    (combinedFilename ∈ mainWrittenFiles chunks ↔
      ∃ d ∈ chunks, ∃ r ∈ d, r ≠ []) := by
  refine ⟨mainWeeklyFiles_length chunks, ?_⟩
  unfold mainWrittenFiles
  constructor
  · intro hmem
    rcases List.mem_append.mp hmem with hw | hc
    · exfalso
      unfold mainWeeklyFiles at hw
      obtain ⟨p, _, hpe⟩ := List.mem_filterMap.mp hw
      split at hpe
      · exact absurd hpe (by simp)
      · split at hpe
        · exact absurd hpe (by simp)
        · exact weeklyFilename_ne_combined p.1 (Option.some_inj.mp hpe)
    · cases ha : (mainAllData chunks).isEmpty
      · rw [List.isEmpty_eq_false] at ha
        have hne2 : ¬ ∀ d ∈ chunks, ∀ r ∈ d, r = [] :=
          fun hall => ha ((mainAllData_eq_nil_iff chunks).mpr hall)
        push_neg at hne2
        exact hne2
      · rw [ha] at hc
        simp at hc
  · rintro ⟨d, hd, r, hr, hrne⟩
    have ha : (mainAllData chunks).isEmpty = false := by
      rw [List.isEmpty_eq_false]
      intro h0
      exact hrne ((mainAllData_eq_nil_iff chunks).mp h0 d hd r hr)
    rw [ha]
    simp

theorem main_one_file_per_nonempty_chunk_witness :
    (mainWeeklyFiles ([[[("Award ID", Value.str "X")]]] : List (List Row))).length
      = (([[[("Award ID", Value.str "X")]]] : List (List Row)).filter
          (fun d => d.any (fun r => !r.isEmpty))).length ∧
    (combinedFilename
        ∈ mainWrittenFiles ([[[("Award ID", Value.str "X")]]] : List (List Row)) ↔
      ∃ d ∈ ([[[("Award ID", Value.str "X")]]] : List (List Row)),
        ∃ r ∈ d, r ≠ []) :=
  main_one_file_per_nonempty_chunk
    ([[[("Award ID", Value.str "X")]]] : List (List Row)) (by decide)

end USASpending
